import Mathlib

/-
  Verification of the remoteserviceapi admission-listing pipeline.

  The definitions below are a shallow embedding of the Python sources:
    src/parsers/unicamplogic/txtparser.py     (parse_unicamp_txt)
    src/parsers/unicamplogic/gender_parser.py (determine_gender)
    src/parsers/unicamplogic/campus_parser.py (remove_accents,
        clean_curso_name_for_lookup, remove_turno_final,
        remove_licenciatura_suffix, determine_campus_and_city,
        process_campus_classification loop body)
    src/api.py (classify_gender_inline, classify_campus_inline,
        build_summary, transform_for_supabase, confirm_job, cancel_job)

  Python strings are modelled as Lean String / List Char.  Python dicts
  (and the JSON lookup maps) are modelled as association lists that keep
  insertion order, matching CPython dict semantics.  Code that can raise
  an exception (indexing an empty list) returns Option, with none for
  the raised exception.  Unicode-dependent primitives (str.upper,
  NFKD decomposition) are modelled character-wise over the ASCII and
  Latin-1 repertoire that the data uses.
-/

namespace RemoteService

/- Python whitespace for str.strip / str.split / regex \s (ASCII part). -/
def isPySpace (c : Char) : Bool :=
  c == ' ' || c == '\t' || c == '\n' || c == '\x0b' || c == '\x0c' || c == '\r'

def pyStripL (l : List Char) : List Char :=
  ((l.dropWhile isPySpace).reverse.dropWhile isPySpace).reverse

/- Python str.strip() with no argument. -/
def pyStrip (s : String) : String := (pyStripL s.toList).asString

/- Python str.split() with no argument: split on whitespace runs, drop empties. -/
def splitWsAux : List Char → List Char → List String
  | [], acc => if acc = [] then [] else [acc.reverse.asString]
  | c :: cs, acc =>
    if isPySpace c then
      if acc = [] then splitWsAux cs []
      else acc.reverse.asString :: splitWsAux cs []
    else splitWsAux cs (c :: acc)

def splitWs (s : String) : List String := splitWsAux s.toList []

/- Python " ".join(s.split()): collapse internal whitespace to single spaces. -/
def collapseWs (s : String) : String := String.intercalate " " (splitWs s)

/- Python str.upper(), character-wise, ASCII plus the Latin-1 letters. -/
def pyUpperChar (c : Char) : Char :=
  if 'a' ≤ c && c ≤ 'z' then Char.ofNat (c.toNat - 32)
  else if 'à' ≤ c && c ≤ 'þ' && c ≠ '÷' then Char.ofNat (c.toNat - 32)
  else c

def pyUpper (s : String) : String := (s.toList.map pyUpperChar).asString

/- Python str.lower(), used to model the re.IGNORECASE comparison. -/
def pyLowerChar (c : Char) : Char :=
  if 'A' ≤ c && c ≤ 'Z' then Char.ofNat (c.toNat + 32)
  else if 'À' ≤ c && c ≤ 'Þ' && c ≠ '×' then Char.ofNat (c.toNat + 32)
  else c

/- Case-sensitive list-prefix test. -/
def hasPref : List Char → List Char → Bool
  | [], _ => true
  | _ :: _, [] => false
  | p :: ps, c :: cs => p == c && hasPref ps cs

/- Case-insensitive list-prefix test (re.IGNORECASE). -/
def hasPrefCI : List Char → List Char → Bool
  | [], _ => true
  | _ :: _, [] => false
  | p :: ps, c :: cs => pyLowerChar p == pyLowerChar c && hasPrefCI ps cs

/- Python `pat in s` substring test. -/
def containsSub (pat : List Char) : List Char → Bool
  | [] => hasPref pat []
  | c :: cs => hasPref pat (c :: cs) || containsSub pat cs

/- Ordered association store, modelling a CPython dict: lookup by key. -/
def lookupA {κ α : Type} [DecidableEq κ] : List (κ × α) → κ → Option α
  | [], _ => none
  | (k', v) :: rest, k => if k' = k then some v else lookupA rest k

/- dict[k] = v with CPython semantics: update in place or append at the end. -/
def setKey {κ α : Type} [DecidableEq κ] : List (κ × α) → κ → α → List (κ × α)
  | [], k, v => [(k, v)]
  | (k', v') :: rest, k, v =>
    if k' = k then (k', v) :: rest else (k', v') :: setKey rest k v

/- del dict[k]. -/
def eraseKey {κ α : Type} [DecidableEq κ] (m : List (κ × α)) (k : κ) : List (κ × α) :=
  m.filter (fun p => p.1 ≠ k)

/- NFKD model for the Latin repertoire: an accented letter decomposes into
   its base letter plus a combining mark, and combining marks are dropped;
   standalone combining marks (U+0300..U+036F) are dropped as well. -/
def baseChar (c : Char) : Char :=
  match c with
  | 'á' | 'à' | 'â' | 'ã' | 'ä' => 'a'
  | 'é' | 'è' | 'ê' | 'ë' => 'e'
  | 'í' | 'ì' | 'î' | 'ï' => 'i'
  | 'ó' | 'ò' | 'ô' | 'õ' | 'ö' => 'o'
  | 'ú' | 'ù' | 'û' | 'ü' => 'u'
  | 'ç' => 'c'
  | 'ñ' => 'n'
  | 'ý' => 'y'
  | 'Á' | 'À' | 'Â' | 'Ã' | 'Ä' => 'A'
  | 'É' | 'È' | 'Ê' | 'Ë' => 'E'
  | 'Í' | 'Ì' | 'Î' | 'Ï' => 'I'
  | 'Ó' | 'Ò' | 'Ô' | 'Õ' | 'Ö' => 'O'
  | 'Ú' | 'Ù' | 'Û' | 'Ü' => 'U'
  | 'Ç' => 'C'
  | 'Ñ' => 'N'
  | _ => c

def deaccentChar (c : Char) : Option Char :=
  if 0x300 ≤ c.toNat && c.toNat ≤ 0x36F then none else some (baseChar c)

/- campus_parser.remove_accents: unicodedata.normalize('NFKD', s) with the
   combining characters filtered out. -/
def removeAccents (s : String) : String :=
  (s.toList.filterMap deaccentChar).asString

/- The literal pattern of `curso.replace(" REMANEJADO", "")`. -/
def remPat : List Char := " REMANEJADO".toList

/- Python str.replace: non-overlapping, left to right, scanning resumes
   after each replacement.  Fuel is the input length; every step consumes
   at least one character, so the fuel never runs out early. -/
def replRemAux : Nat → List Char → List Char
  | 0, l => l
  | _ + 1, [] => []
  | n + 1, c :: cs =>
    if hasPref remPat (c :: cs) then replRemAux n ((c :: cs).drop remPat.length)
    else c :: replRemAux n cs

/- campus_parser.clean_curso_name_for_lookup:
   curso.replace(" REMANEJADO", "").strip(), empty for falsy input. -/
def cleanCursoNameForLookup (curso : String) : String :=
  (pyStripL (replRemAux curso.toList.length curso.toList)).asString

/- campus_parser.remove_turno_final:
   re.sub(r'\s*\([^)]+\)\s*$', '', curso).strip().
   The regex removes one parenthetical group anchored at end of string:
   the last character (after trailing whitespace) must be a closing paren,
   the matching opening paren is the leftmost one that has no closing
   paren between it and the end, and the group body must be non-empty. -/
def removeTurnoFinal (curso : String) : String :=
  let t := pyStripL curso.toList
  match t.reverse with
  | ')' :: revCore =>
    let core := revCore.reverse
    let tailNoParen := ((revCore.takeWhile (fun c => c ≠ ')')).reverse : List Char)
    let keptHead := core.take (core.length - tailNoParen.length)
    let u := tailNoParen.takeWhile (fun c => c ≠ '(')
    if u.length = tailNoParen.length then pyStrip curso
    else
      let inner := tailNoParen.drop (u.length + 1)
      if inner = [] then pyStrip curso
      else (pyStripL (keptHead ++ u)).asString
  | _ => pyStrip curso

def licPat : List Char := "licenciatura".toList

/- One attempted match of `\s*-\s*Licenciatura` (case-insensitive) at the
   head of the list; returns the remainder after the match. -/
def licMatch (l : List Char) : Option (List Char) :=
  match l.dropWhile isPySpace with
  | '-' :: l2 =>
    let l3 := l2.dropWhile isPySpace
    if hasPrefCI licPat l3 then some (l3.drop licPat.length) else none
  | _ => none

/- re.sub scanning: try a match at every position, left to right, and
   resume after the matched text.  A successful match consumes at least
   the hyphen and the twelve letters, so length is enough fuel. -/
def remLicAux : Nat → List Char → List Char
  | 0, l => l
  | _ + 1, [] => []
  | n + 1, c :: cs =>
    match licMatch (c :: cs) with
    | some rest => remLicAux n rest
    | none => c :: remLicAux n cs

/- campus_parser.remove_licenciatura_suffix:
   re.sub(r'\s*-\s*Licenciatura', '', curso, flags=re.IGNORECASE).strip(). -/
def removeLicenciaturaSuffix (curso : String) : String :=
  (pyStripL (remLicAux curso.toList.length curso.toList)).asString

/- The four-step clean-name pipeline, in the fixed order used by both
   api.classify_campus_inline and the campus_parser processing loop:
   strip the reassignment marker, strip the trailing shift parenthetical,
   strip the licentiate suffix, strip diacritics. -/
def normalizeCourse (curso : String) : String :=
  removeAccents (removeLicenciaturaSuffix (removeTurnoFinal (cleanCursoNameForLookup curso)))

/- The candidate / classified record.  Fields mirror the dict built in
   txtparser.parse_unicamp_txt; unidade, curso_limpo and remanejado are
   added later by the classification steps, so they are Options with
   none both for an absent key and for a JSON null (the code never
   distinguishes the two for these fields). -/
structure Student where
  inscricao : String
  nome : String
  cidade : Option String
  universidade : String
  campus : Option String
  genero : Option String
  chamada : Nat
  curso : String
  cota : Option String
  unidade : Option String
  curso_limpo : Option String
  remanejado : Option Bool
deriving DecidableEq

def mkStudent (insc nome curso : String) (chamada : Nat) (cota : Option String) : Student :=
  { inscricao := insc, nome := nome, cidade := none, universidade := "unicamp",
    campus := none, genero := none, chamada := chamada, curso := curso,
    cota := cota, unidade := none, curso_limpo := none, remanejado := none }

/- Separator search for the line regex `^\((\d+)\)\s*(.*?)\s{3,}(.*)$`:
   the first position holding three consecutive whitespace characters;
   the greedy \s{3,} then consumes the whole whitespace run. -/
def findSep : List Char → Option (List Char × List Char)
  | a :: b :: c :: rest =>
    if isPySpace a && isPySpace b && isPySpace c then
      some ([], (a :: b :: c :: rest).dropWhile isPySpace)
    else
      match findSep (b :: c :: rest) with
      | some (pre, post) => some (a :: pre, post)
      | none => none
  | _ => none

/- txtparser line_regex: leading '(', a non-empty digit run, ')', then the
   backtracking semantics of `\s*(.*?)\s{3,}(.*)$`: with w the leading
   whitespace run after the ')', the name group runs from the end of w up
   to the first later 3-whitespace separator; if there is none and w
   itself has length at least three, the name group is empty and the
   course group starts right after w; otherwise the line does not match. -/
def matchLine (line : String) : Option (String × String × String) :=
  match line.toList with
  | '(' :: rest =>
    let ds := rest.takeWhile Char.isDigit
    if ds = [] then none
    else
      match rest.dropWhile Char.isDigit with
      | ')' :: r3 =>
        let w := r3.takeWhile isPySpace
        let body := r3.dropWhile isPySpace
        match findSep body with
        | some (pre, post) => some (ds.asString, pre.asString, post.asString)
        | none =>
          if 3 ≤ w.length then some (ds.asString, "", body.asString) else none
      | _ => none
  | _ => none

/- txtparser cota_regex `(\s*\([\*\s]+\))$` searched on the stripped name
   part: a trailing parenthetical whose body is a non-empty run of
   asterisks and whitespace.  Returns (cota, nome) exactly as the source
   computes them (group(1).strip() and the stripped remaining prefix). -/
def extractCota (nomePart : String) : Option String × String :=
  match nomePart.toList.reverse with
  | ')' :: rest =>
    let innerRev := rest.takeWhile (fun c => c == '*' || isPySpace c)
    match rest.drop innerRev.length with
    | '(' :: beforeRev =>
      if innerRev = [] then (none, nomePart)
      else
        (some (('(' :: innerRev.reverse ++ [')']).asString),
         (pyStripL beforeRev.reverse).asString)
    | _ => (none, nomePart)
  | _ => (none, nomePart)

/- The body of the txtparser loop for one raw line: strip, silently skip
   empties, skip lines that fail the grammar, otherwise build the record.
   The source additionally wraps the field extraction in try/except whose
   handler also just skips the line and continues; no modelled operation
   raises, so the handler is the same skip. -/
def lineToStudent (chamada : Nat) (rawLine : String) : Option Student :=
  let line := pyStrip rawLine
  if line = "" then none
  else
    match matchLine line with
    | none => none
    | some (inscricao, nomePartRaw, cursoPart) =>
      let nomePart := pyStrip nomePartRaw
      let (cota, nome) := extractCota nomePart
      let curso := collapseWs (pyStrip cursoPart)
      some (mkStudent inscricao nome curso chamada cota)

def parseLines (lines : List String) (chamada : Nat) : List Student :=
  lines.filterMap (lineToStudent chamada)

/- Python content.split('\n'): split on every newline, keeping empty
   pieces (so "".split('\n') is [""]). -/
def splitNlAux : List Char → List Char → List String
  | [], acc => [acc.reverse.asString]
  | c :: cs, acc =>
    if c = '\n' then acc.reverse.asString :: splitNlAux cs []
    else splitNlAux cs (c :: acc)

def pySplitNl (s : String) : List String := splitNlAux s.toList []

/- txtparser.parse_unicamp_txt on the raw text blob: content.split('\n')
   processed line by line. -/
def parseUnicampTxt (content : String) (chamada : Nat) : List Student :=
  parseLines (pySplitNl content) chamada

/- Number of non-empty lines that fail the line grammar.  Modelled from
   the spec: the code keeps no such count anywhere; this definition
   exists only to state what claim C4 says should be surfaced. -/
def specParseFailures (content : String) : Nat :=
  ((pySplitNl content).map pyStrip).countP
    (fun l => l != "" && (matchLine l).isNone)

/- gender_parser.determine_gender line 15:
   `nome_completo.split()[0].upper() if nome_completo else ""`.
   none models the IndexError raised when the name is non-empty but
   whitespace-only. -/
def firstTokenUpper (nome : String) : Option String :=
  if nome = "" then some "" else (splitWs nome).head?.map pyUpper

/- The fallback key: re.sub(r'[^A-Z]', '', primeiro_nome) keeps only the
   characters A..Z of the uppercased first token. -/
def stripNonAZ (s : String) : String :=
  (s.toList.filter (fun c => 'A' ≤ c && c ≤ 'Z')).asString

/- gender_parser.determine_gender: verbatim lookup of the uppercased
   first token, then lookup of its A-Z-only form, then the composite-name
   branch (which recomputes the very same first token, so it can never
   hit after the first lookup missed), then "I". -/
def determineGender (nomeCompleto : String) (genderMap : List (String × String)) :
    Option String :=
  match firstTokenUpper nomeCompleto with
  | none => none
  | some primeiroNome =>
    match lookupA genderMap primeiroNome with
    | some g => some g
    | none =>
      match lookupA genderMap (stripNonAZ primeiroNome) with
      | some g => some g
      | none =>
        if nomeCompleto.toList.contains ' ' then
          match (splitWs nomeCompleto).head?.map pyUpper with
          | none => none
          | some composto =>
            match lookupA genderMap composto with
            | some g => some g
            | none => some "I"
        else some "I"

/- The per-student computation of api.classify_gender_inline:
   gender_map.get(primeiro, gender_map.get(re.sub(r"[^A-Z]", "", primeiro), "I")). -/
def classifyGenderValue (genderMap : List (String × String)) (nome : String) :
    Option String :=
  match firstTokenUpper nome with
  | none => none
  | some primeiro =>
    some (match lookupA genderMap primeiro with
          | some g => g
          | none => (lookupA genderMap (stripNonAZ primeiro)).getD "I")

/- api.classify_gender_inline over the whole batch; none models the loop
   aborting with the IndexError of a whitespace-only name. -/
def classifyGenderInline (genderMap : List (String × String)) (students : List Student) :
    Option (List Student) :=
  students.mapM (fun s =>
    (classifyGenderValue genderMap s.nome).map (fun g => { s with genero := some g }))

/- campus_parser.determine_campus_and_city. -/
def determineCampusAndCity (cursoOriginal : String)
    (cursoToUnidades : List (String × List String))
    (unidadeToCidade : List (String × String)) : Option String × Option String :=
  let cursoBusca := cleanCursoNameForLookup cursoOriginal
  match (match lookupA cursoToUnidades cursoBusca with
         | some l => some l
         | none => lookupA cursoToUnidades (collapseWs cursoBusca)) with
  | none => (none, none)
  | some [] => (none, none)
  | some (primeiraUnidade :: _) =>
    match lookupA unidadeToCidade primeiraUnidade with
    | none => (some primeiraUnidade, none)
    | some cidade => (some primeiraUnidade, some cidade)

/- Python `d.get(k1) or d.get(k2)` of api.classify_campus_inline line 111:
   the second lookup is used when the first returns None or an empty list. -/
def pyGetOrList (m : List (String × List String)) (k1 k2 : String) :
    Option (List String) :=
  match lookupA m k1 with
  | some l => if l = [] then lookupA m k2 else some l
  | none => lookupA m k2

/- The body of the api.classify_campus_inline loop for one student:
   when the lookup misses (None or empty list) the student is left
   untouched (`continue`), so campus, unidade and curso_limpo are not
   set on unresolved records. -/
def classifyCampusStudent (cursoToUnidades : List (String × List String))
    (unidadeToCidade : List (String × String)) (s : Student) : Student :=
  let busca := cleanCursoNameForLookup s.curso
  match pyGetOrList cursoToUnidades busca (collapseWs busca) with
  | some (unidade :: _) =>
    let temp := removeLicenciaturaSuffix (removeTurnoFinal (cleanCursoNameForLookup s.curso))
    { s with campus := lookupA unidadeToCidade unidade,
             unidade := some unidade,
             curso_limpo := some (removeAccents temp) }
  | _ => s

/- api.classify_campus_inline: with an empty course map the whole batch is
   returned unchanged. -/
def classifyCampusInline (cursoToUnidades : List (String × List String))
    (unidadeToCidade : List (String × String)) (students : List Student) :
    List Student :=
  if cursoToUnidades = [] then students
  else students.map (classifyCampusStudent cursoToUnidades unidadeToCidade)

/- The body of the campus_parser.process_campus_classification loop for
   one student (lines 126..149): the REMANEJADO flag, the campus lookup,
   and the four-step clean name are always computed and stored. -/
def processRecordCampus (cursoToUnidades : List (String × List String))
    (unidadeToCidade : List (String × String)) (s : Student) : Student :=
  let isRemanejado := containsSub "REMANEJADO".toList s.curso.toList
  let uc := determineCampusAndCity s.curso cursoToUnidades unidadeToCidade
  let tempName := cleanCursoNameForLookup s.curso
  let tempName2 := removeTurnoFinal tempName
  let tempName3 := removeLicenciaturaSuffix tempName2
  { s with campus := uc.2, unidade := uc.1,
           remanejado := some isRemanejado,
           curso_limpo := some (removeAccents tempName3) }

/- Grouping keys of api.build_summary / api.confirm_job:
   `s.get("campus") or "indeterminado"` and `s.get("cota") or "sem_cota"`
   treat both a missing value and an empty string as falsy. -/
def campusKey (s : Student) : String :=
  match s.campus with
  | some c => if c = "" then "indeterminado" else c
  | none => "indeterminado"

def cotaKey (s : Student) : String :=
  match s.cota with
  | some c => if c = "" then "sem_cota" else c
  | none => "sem_cota"

/- `s.get("genero", "I")`: after the pipeline the genero key is always
   set, so the default only fires for an absent value. -/
def generoKey (s : Student) : String := s.genero.getD "I"

/- defaultdict(int) increment: first occurrence appends the key. -/
def bump : List (String × Nat) → String → List (String × Nat)
  | [], k => [(k, 1)]
  | (k', n) :: rest, k =>
    if k' = k then (k', n + 1) :: rest else (k', n) :: bump rest k

def lookupNat (m : List (String × Nat)) (k : String) : Nat :=
  (lookupA m k).getD 0

/- api.build_summary. -/
structure Summary where
  total : Nat
  porGenero : List (String × Nat)
  porCampus : List (String × Nat)
  porCota : List (String × Nat)
deriving DecidableEq

def buildSummary (students : List Student) : Summary :=
  { total := students.length,
    porGenero := students.foldl (fun m s => bump m (generoKey s)) [],
    porCampus := students.foldl (fun m s => bump m (campusKey s)) [],
    porCota := students.foldl (fun m s => bump m (cotaKey s)) [] }

/- The row shape of api.transform_for_supabase. -/
structure Row where
  inscricao : String
  name : String
  course : String
  university : String
  cidade : String
  unidade : Option String
  chamada : Nat
  genero : String
  cota : Option String
  remanejado : Bool
deriving DecidableEq

/- The required-field rejection of api.transform_for_supabase lines
   155..164: course falls back from curso_limpo to curso through the
   falsy `or`, and any falsy inscricao / nome / course / campus skips
   the record. -/
def courseFor (s : Student) : String :=
  match s.curso_limpo with
  | some c => if c = "" then s.curso else c
  | none => s.curso

def requiredMissing (s : Student) : Bool :=
  s.inscricao == "" || s.nome == "" || courseFor s == "" ||
    (match s.campus with | some c => c == "" | none => true)

def generoDb (s : Student) : String :=
  if generoKey s = "M" then "male"
  else if generoKey s = "F" then "female"
  else "other"

def rowOf (s : Student) : Row :=
  { inscricao := s.inscricao, name := s.nome, course := courseFor s,
    university := s.universidade, cidade := s.campus.getD "",
    unidade := s.unidade, chamada := s.chamada, genero := generoDb s,
    cota := s.cota, remanejado := s.remanejado.getD false }

def transformStep (acc : List (String × Row) × Nat) (s : Student) :
    List (String × Row) × Nat :=
  if requiredMissing s then (acc.1, acc.2 + 1)
  else (setKey acc.1 s.inscricao (rowOf s), acc.2)

/- api.transform_for_supabase: rows is an insertion-ordered dict keyed by
   inscricao (last write wins), the result is list(rows.values()) plus
   the skipped counter. -/
def transformForSupabase (students : List Student) : List Row × Nat :=
  let acc := students.foldl transformStep ([], 0)
  (acc.1.map (fun p => p.2), acc.2)

/- api.confirm_job lines 302..304: group the batch by city with the
   "indeterminado" sentinel, keys in first-appearance order, each group
   keeping batch order (defaultdict(list)). -/
def addToGroup : List (String × List Student) → String → Student →
    List (String × List Student)
  | [], k, s => [(k, [s])]
  | (k', l) :: rest, k, s =>
    if k' = k then (k', l ++ [s]) :: rest else (k', l) :: addToGroup rest k s

def groupByCity (students : List Student) : List (String × List Student) :=
  students.foldl (fun acc s => addToGroup acc (campusKey s) s) []

/- api.confirm_job lines 312..324, the cumulative per-city merge step:
   read the existing city file, collect its inscricao values, append only
   the incoming records whose inscricao is not already present. -/
def mergeCityFile (existing lst : List Student) : List Student :=
  existing ++ lst.filter (fun s => !(existing.any (fun e => e.inscricao == s.inscricao)))

/- api.confirm_job line 327: the per-call full dump is written with every
   record of the batch, unfiltered. -/
def fullDumpFor (students : List Student) : List Student := students

/- The staging entry created by api.parse_url and consumed by
   confirm/cancel/status.  A cancelled job is deleted from staging, so
   the only stored statuses are pending and confirmed. -/
inductive JobStatus
  | pending
  | confirmed
deriving DecidableEq

structure Job where
  students : List Student
  url : String
  university : String
  chamada : Nat
  summary : Summary
  status : JobStatus
deriving DecidableEq

inductive Resp
  | ok
  | notFound
  | conflict
deriving DecidableEq

/- The persistent file state touched by confirm_job: the cumulative
   cities/<city>.json files, the per-call chamadas/<city>/c<n>.json
   snapshots, and the chamada_<n>_full.json dumps, each modelled as a
   keyed store. -/
structure ServerState where
  staging : List (String × Job)
  cities : List (String × List Student)
  chamadas : List ((String × Nat) × List Student)
  fullDump : List (Nat × List Student)
deriving DecidableEq

def setJobStatus (staging : List (String × Job)) (jobId : String) (st : JobStatus) :
    List (String × Job) :=
  staging.map (fun p => if p.1 = jobId then (p.1, { p.2 with status := st }) else p)

/- api.confirm_job: 404 on an unknown id, 409 on a non-pending job, both
   without touching any state; otherwise run the local merge (snapshot
   overwrite, cumulative dedup append, full dump overwrite) and mark the
   job confirmed.  The Supabase upsert is an external best-effort side
   effect whose outcome only changes the response message, not the state
   transition, so it is not part of the state. -/
def confirmJob (st : ServerState) (jobId : String) : ServerState × Resp :=
  match lookupA st.staging jobId with
  | none => (st, Resp.notFound)
  | some job =>
    if job.status ≠ JobStatus.pending then (st, Resp.conflict)
    else
      let groups := groupByCity job.students
      let chamadas' := groups.foldl
        (fun acc p => setKey acc (p.1, job.chamada) p.2) st.chamadas
      let cities' := groups.foldl
        (fun acc p => setKey acc p.1 (mergeCityFile ((lookupA acc p.1).getD []) p.2))
        st.cities
      ({ staging := setJobStatus st.staging jobId JobStatus.confirmed,
         cities := cities', chamadas := chamadas',
         fullDump := setKey st.fullDump job.chamada (fullDumpFor job.students) },
       Resp.ok)

/- api.cancel_job: delete the entry when present, and answer 200 with
   "Job cancelado." in every case. -/
def cancelJob (st : ServerState) (jobId : String) : ServerState × Resp :=
  if (lookupA st.staging jobId).isSome then
    ({ st with staging := eraseKey st.staging jobId }, Resp.ok)
  else (st, Resp.ok)

/- Concrete instances used by the witnesses and counterexamples below. -/

def c1dupA : Student := mkStudent "1" "Ana Silva" "Artes (N)" 1 none

def c1dupB : Student := mkStudent "1" "Bia Costa" "Artes (N)" 1 none

def c1newC : Student := mkStudent "2" "Caio Dias" "Letras" 2 none

def c1dupC : Student := mkStudent "1" "Ana Silva" "Artes (N)" 2 none

def c1exist : List Student := [c1dupA]

def c1batch : List Student := [c1dupC, c1newC]

def c2ConfirmedJob : Job :=
  { students := [], url := "u", university := "unicamp", chamada := 1,
    summary := buildSummary [], status := JobStatus.confirmed }

def c2State : ServerState :=
  { staging := [("j", c2ConfirmedJob)], cities := [], chamadas := [], fullDump := [] }

def c3Map1 : List (String × List String) := [("Artes Visuais (N)", ["IA"])]

def c3Student : Student := mkStudent "10" "Ana Reis" "Curso Inexistente (N)" 1 none

def c3ResStudent : Student := mkStudent "11" "Bia Luz" "Artes Visuais (N)" 1 none

def c4GoodContent : String := "(1) Ana Reis   Artes Visuais"

def c4BadContent : String := "(1) Ana Reis   Artes Visuais\nlinha sem formato"

def c5Map : List (String × String) := [("ABEL", "M"), ("MARIA", "F")]

def c6Map1 : List (String × List String) := [("Fisica (N)", ["IFGW", "IMECC"])]

def c6Map2 : List (String × String) := [("IFGW", "Campinas")]

def c8Rec : Student := mkStudent "20" "Caro Luz" "Curso X" 1 none

def c9Line : String :=
  "(241498191) Abel Rapha de Jesus Macedo (***)   Matematica - Licenciatura (N)"

def c9Student : Student :=
  mkStudent "241498191" "Abel Rapha de Jesus Macedo" "Matematica - Licenciatura (N)" 1
    (some "(***)")

/- ── Theorems ──────────────────────────────────────────────────────── -/

/-- Claim C7 counterexample: the four-step normalization is not idempotent
on every course string.  "X (a)(b)" normalizes to "X (a)" (the trailing
parenthetical regex removes exactly one group), and a second application
strips the remaining group, giving "X". -/
theorem c7_counterexample :
    normalizeCourse (normalizeCourse "X (a)(b)") ≠ normalizeCourse "X (a)(b)" := by
  decide

/-- Claim C7 (amended): the four-step normalization is idempotent on every
course string whose normalized form is a fixed point of each single step,
i.e. whose output carries no further reassignment marker, no trailing
parenthetical group, no licentiate suffix and no diacritics. -/
theorem c7_amended_idempotent (s : String)
    (h1 : cleanCursoNameForLookup (normalizeCourse s) = normalizeCourse s)
    (h2 : removeTurnoFinal (normalizeCourse s) = normalizeCourse s)
    (h3 : removeLicenciaturaSuffix (normalizeCourse s) = normalizeCourse s)
    (h4 : removeAccents (normalizeCourse s) = normalizeCourse s) :
    normalizeCourse (normalizeCourse s) = normalizeCourse s := by
  calc normalizeCourse (normalizeCourse s)
      = removeAccents (removeLicenciaturaSuffix (removeTurnoFinal
          (cleanCursoNameForLookup (normalizeCourse s)))) := rfl
    _ = normalizeCourse s := by rw [h1, h2, h3, h4]

/-- Witness for C7's amended theorem at the shift-marked course
"Pedagogia (N)". -/
theorem c7_witness :
    normalizeCourse (normalizeCourse "Pedagogia (N)") = normalizeCourse "Pedagogia (N)" :=
  c7_amended_idempotent "Pedagogia (N)" (by decide) (by decide) (by decide) (by decide)

/-- Claim C9: extracting the concrete admission line with call number 1
and classifying it yields the record with enrollment id "241498191",
raw name "Abel Rapha de Jesus Macedo", quota marker "(***)", clean course
name "Matematica" (diacritic-free, with the "(N)" shift marker and the
"- Licenciatura" suffix removed), and reassigned = false — for every pair
of lookup maps, since the clean name and the flag do not depend on them. -/
theorem c9_end_to_end :
    ∃ s : Student, parseUnicampTxt c9Line 1 = [s] ∧
      s.inscricao = "241498191" ∧
      s.nome = "Abel Rapha de Jesus Macedo" ∧
      s.cota = some "(***)" ∧
      s.chamada = 1 ∧
      s.curso = "Matematica - Licenciatura (N)" ∧
      ∀ (m1 : List (String × List String)) (m2 : List (String × String)),
        (processRecordCampus m1 m2 s).curso_limpo = some "Matematica" ∧
        (processRecordCampus m1 m2 s).remanejado = some false := by
  refine ⟨c9Student, by decide, rfl, rfl, rfl, rfl, rfl, ?_⟩
  intro m1 m2
  constructor
  · show some (removeAccents (removeLicenciaturaSuffix (removeTurnoFinal
      (cleanCursoNameForLookup c9Student.curso)))) = some "Matematica"
    decide
  · show some (containsSub "REMANEJADO".toList c9Student.curso.toList) = some false
    decide

theorem firstTokenUpper_isSome (nome : String) :
    (firstTokenUpper nome).isSome = true ↔ (nome = "" ∨ splitWs nome ≠ []) := by
  unfold firstTokenUpper
  by_cases h : nome = ""
  · simp [h]
  · cases hs : splitWs nome <;> simp [h, hs]

theorem determineGender_isSome_eq (nome : String) (m : List (String × String)) :
    (determineGender nome m).isSome = (firstTokenUpper nome).isSome := by
  unfold determineGender
  cases hf : firstTokenUpper nome with
  | none => simp
  | some p =>
    simp only [Option.isSome_some]
    cases h1 : lookupA m p with
    | some g => simp
    | none =>
      cases h2 : lookupA m (stripNonAZ p) with
      | some g => simp
      | none =>
        by_cases hsp : nome.toList.contains ' '
        · have hne : nome ≠ "" := by
            intro he
            rw [he] at hsp
            simp [String.toList] at hsp
          have hft : (splitWs nome).head?.map pyUpper = some p := by
            unfold firstTokenUpper at hf
            rwa [if_neg hne] at hf
          simp only [hsp, if_true, hft]
          cases lookupA m p <;> simp
        · rw [if_neg hsp]
          rfl

/-- Claim C10: the gender classifier is not total at the public
interface.  On the non-null, non-empty, whitespace-only name "   " both
determine_gender and the inline api computation raise (modelled as none:
indexing the first element of the empty token list), and the classifier
returns a gender code exactly for names that are empty or contain at
least one non-whitespace token. -/
theorem c10_gender_totality_boundary :
    (∀ m : List (String × String), determineGender "   " m = none) ∧
    "   " ≠ "" ∧
    (∀ m : List (String × String), classifyGenderValue m "   " = none) ∧
    ∀ (nome : String) (m : List (String × String)),
      (determineGender nome m).isSome = true ↔ (nome = "" ∨ splitWs nome ≠ []) := by
  have hf : firstTokenUpper "   " = none := by decide
  refine ⟨fun m => ?_, by decide, fun m => ?_, fun nome m => ?_⟩
  · unfold determineGender
    rw [hf]
  · unfold classifyGenderValue
    rw [hf]
  · rw [determineGender_isSome_eq]
    exact firstTokenUpper_isSome nome

/-- Claim C5: for every map without an empty key and every name that is
either empty or has a first whitespace-delimited token, both
determine_gender and the inline api computation follow exactly the
claimed chain: uppercase the first token, look it up verbatim, on a miss
strip every character outside A..Z and look up again, on a second miss
return "I"; an empty name returns "I"; no other fallback changes the
result (the composite-name branch of determine_gender is dead code). -/
theorem c5_gender_algorithm (m : List (String × String)) (nome : String)
    (hempty : lookupA m "" = none) :
    (nome = "" → determineGender nome m = some "I" ∧
      classifyGenderValue m nome = some "I") ∧
    (∀ t ts, splitWs nome = t :: ts →
      determineGender nome m = some (match lookupA m (pyUpper t) with
        | some g => g
        | none => (lookupA m (stripNonAZ (pyUpper t))).getD "I") ∧
      classifyGenderValue m nome = some (match lookupA m (pyUpper t) with
        | some g => g
        | none => (lookupA m (stripNonAZ (pyUpper t))).getD "I")) := by
  constructor
  · intro h
    subst h
    constructor
    · have hD : determineGender "" m =
          (match lookupA m "" with
           | some g => some g
           | none =>
             match lookupA m "" with
             | some g => some g
             | none => some "I") := rfl
      rw [hD, hempty]
    · have hD : classifyGenderValue m "" =
          some (match lookupA m "" with
                | some g => g
                | none => (lookupA m "").getD "I") := rfl
      rw [hD, hempty]
      rfl
  · intro t ts h
    have h0 : splitWs "" = [] := by decide
    have hne : nome ≠ "" := by
      intro he
      rw [he, h0] at h
      exact List.noConfusion h
    have hft : firstTokenUpper nome = some (pyUpper t) := by
      unfold firstTokenUpper
      rw [if_neg hne, h]
      rfl
    constructor
    · unfold determineGender
      rw [hft]
      cases h1 : lookupA m (pyUpper t) with
      | some g => simp [h1]
      | none =>
        cases h2 : lookupA m (stripNonAZ (pyUpper t)) with
        | some g => simp [h1, h2]
        | none =>
          by_cases hsp : nome.toList.contains ' ' = true
          · rw [if_pos hsp, h]
            simp [h1, h2]
          · rw [if_neg hsp]
            simp [h1, h2]
    · unfold classifyGenderValue
      rw [hft]

/-- Witness for C5 at the two-token name "Maria Clara" and a small map
whose keys are all non-empty. -/
theorem c5_witness :
    determineGender "Maria Clara" c5Map = some (match lookupA c5Map (pyUpper "Maria") with
      | some g => g
      | none => (lookupA c5Map (stripNonAZ (pyUpper "Maria"))).getD "I") ∧
    classifyGenderValue c5Map "Maria Clara" = some (match lookupA c5Map (pyUpper "Maria") with
      | some g => g
      | none => (lookupA c5Map (stripNonAZ (pyUpper "Maria"))).getD "I") :=
  (c5_gender_algorithm c5Map "Maria Clara" (by decide)).2 "Maria" ["Clara"] (by decide)

/-- Claim C6: the campus lookup key is the raw course with the
reassignment marker stripped (step 1 only, shift marker retained); it is
looked up verbatim in the course map, retried once with internal
whitespace collapsed, and the result is (null, null) when both lookups
miss; on a hit the first unit code of the list is chosen and the city is
whatever the unit map gives for it — in particular (unit, null) when the
unit is absent from the unit map. -/
theorem c6_campus_lookup (m1 : List (String × List String))
    (m2 : List (String × String)) (curso : String) :
    (lookupA m1 (cleanCursoNameForLookup curso) = none →
      lookupA m1 (collapseWs (cleanCursoNameForLookup curso)) = none →
      determineCampusAndCity curso m1 m2 = (none, none)) ∧
    (∀ u rest, lookupA m1 (cleanCursoNameForLookup curso) = some (u :: rest) →
      determineCampusAndCity curso m1 m2 = (some u, lookupA m2 u)) ∧
    (∀ u rest, lookupA m1 (cleanCursoNameForLookup curso) = none →
      lookupA m1 (collapseWs (cleanCursoNameForLookup curso)) = some (u :: rest) →
      determineCampusAndCity curso m1 m2 = (some u, lookupA m2 u)) := by
  refine ⟨fun h1 h2 => ?_, fun u rest h1 => ?_, fun u rest h1 h2 => ?_⟩
  · unfold determineCampusAndCity
    dsimp only
    rw [h1, h2]
  · unfold determineCampusAndCity
    dsimp only
    rw [h1]
    cases hc : lookupA m2 u <;> simp [hc]
  · unfold determineCampusAndCity
    dsimp only
    rw [h1, h2]
    cases hc : lookupA m2 u <;> simp [hc]

/-- Witness for C6: a direct hit through a reassignment-marked course, a
double miss, and a whitespace-collapsed retry hit, on concrete maps. -/
theorem c6_witness :
    determineCampusAndCity "Fisica REMANEJADO (N)" c6Map1 c6Map2
      = (some "IFGW", lookupA c6Map2 "IFGW") ∧
    determineCampusAndCity "Quimica (N)" c6Map1 c6Map2 = (none, none) ∧
    determineCampusAndCity "Fisica  (N)" c6Map1 c6Map2
      = (some "IFGW", lookupA c6Map2 "IFGW") :=
  ⟨(c6_campus_lookup c6Map1 c6Map2 "Fisica REMANEJADO (N)").2.1 "IFGW" ["IMECC"]
      (by decide),
   (c6_campus_lookup c6Map1 c6Map2 "Quimica (N)").1 (by decide) (by decide),
   (c6_campus_lookup c6Map1 c6Map2 "Fisica  (N)").2.2 "IFGW" ["IMECC"]
      (by decide) (by decide)⟩

/-- Claim C1 counterexample: a batch that itself contains the same
enrollment id twice is appended twice by the cumulative merge (the
already-present filter is computed against the existing store only), so
an enrollment id can appear twice in a city file. -/
theorem c1_counterexample :
    ¬ (((mergeCityFile [] [c1dupA, c1dupB]).map (fun s => s.inscricao)).Nodup) := by
  decide

/-- Claim C1 (amended): the cumulative per-city merge is idempotent
(running the same batch twice equals running it once), a record whose
enrollment id is already present in the store is never appended again,
and no enrollment id appears twice in the city file provided the
starting store and the incoming city batch each carry pairwise distinct
enrollment ids — without that proviso a within-batch duplicate is
appended twice. -/
theorem c1_amended_merge (existing lst : List Student) :
    mergeCityFile (mergeCityFile existing lst) lst = mergeCityFile existing lst ∧
    (∀ s ∈ lst, s.inscricao ∈ existing.map (fun e => e.inscricao) →
      (mergeCityFile existing lst).countP (fun x => x.inscricao == s.inscricao) =
        existing.countP (fun x => x.inscricao == s.inscricao)) ∧
    ((existing.map (fun e => e.inscricao)).Nodup →
      (lst.map (fun e => e.inscricao)).Nodup →
      ((mergeCityFile existing lst).map (fun e => e.inscricao)).Nodup) := by
  refine ⟨?_, ?_, ?_⟩
  · unfold mergeCityFile
    have hnil : lst.filter (fun s =>
        !((existing ++ lst.filter (fun s =>
            !(existing.any (fun e => e.inscricao == s.inscricao)))).any
          (fun e => e.inscricao == s.inscricao))) = [] := by
      rw [List.filter_eq_nil_iff]
      intro s hs
      simp only [Bool.not_eq_true', Bool.not_eq_false]
      rw [List.any_append]
      cases hE : existing.any (fun e => e.inscricao == s.inscricao) with
      | true => rfl
      | false =>
        have hsF : s ∈ lst.filter (fun s =>
            !(existing.any (fun e => e.inscricao == s.inscricao))) := by
          rw [List.mem_filter]
          exact ⟨hs, by rw [hE]; rfl⟩
        have : (lst.filter (fun s =>
            !(existing.any (fun e => e.inscricao == s.inscricao)))).any
              (fun e => e.inscricao == s.inscricao) = true := by
          rw [List.any_eq_true]
          exact ⟨s, hsF, by simp⟩
        rw [this]
        rfl
    rw [hnil, List.append_nil]
  · intro s hs hins
    unfold mergeCityFile
    rw [List.countP_append]
    have h0 : (lst.filter (fun x =>
        !(existing.any (fun e => e.inscricao == x.inscricao)))).countP
          (fun x => x.inscricao == s.inscricao) = 0 := by
      rw [List.countP_eq_zero]
      intro x hx
      rw [List.mem_filter] at hx
      obtain ⟨hx1, hx2⟩ := hx
      intro hbeq
      have hxi : x.inscricao = s.inscricao := by
        exact eq_of_beq hbeq
      rw [List.mem_map] at hins
      obtain ⟨e, he, hei⟩ := hins
      have : existing.any (fun e => e.inscricao == x.inscricao) = true := by
        rw [List.any_eq_true]
        exact ⟨e, he, by rw [hei, hxi]; simp⟩
      rw [this] at hx2
      exact Bool.noConfusion hx2
    rw [h0]
    omega
  · intro hE hL
    unfold mergeCityFile
    rw [List.map_append, List.nodup_append]
    refine ⟨hE, ?_, ?_⟩
    · exact hL.sublist ((List.filter_sublist lst).map (fun e => e.inscricao))
    · intro a ha hb
      rw [List.mem_map] at ha hb
      obtain ⟨e, he, hei⟩ := ha
      obtain ⟨x, hx, hxi⟩ := hb
      rw [List.mem_filter] at hx
      obtain ⟨hx1, hx2⟩ := hx
      have : existing.any (fun e2 => e2.inscricao == x.inscricao) = true := by
        rw [List.any_eq_true]
        refine ⟨e, he, ?_⟩
        rw [hei, hxi]
        simp
      rw [this] at hx2
      exact Bool.noConfusion hx2

/-- Witness for C1's amended theorem on a concrete store and batch with
distinct ids on each side. -/
theorem c1_witness :
    mergeCityFile (mergeCityFile c1exist c1batch) c1batch = mergeCityFile c1exist c1batch ∧
    (mergeCityFile c1exist c1batch).countP (fun x => x.inscricao == c1dupC.inscricao) =
      c1exist.countP (fun x => x.inscricao == c1dupC.inscricao) ∧
    ((mergeCityFile c1exist c1batch).map (fun e => e.inscricao)).Nodup :=
  ⟨(c1_amended_merge c1exist c1batch).1,
   (c1_amended_merge c1exist c1batch).2.1 c1dupC (by decide) (by decide),
   (c1_amended_merge c1exist c1batch).2.2 (by decide) (by decide)⟩

/-- Claim C2 counterexample: a cancel request on an already-confirmed
batch is not rejected — it answers 200 ("Job cancelado.") rather than a
conflict or not-found, and it mutates state by deleting the staged
entry. -/
theorem c2_counterexample :
    (cancelJob c2State "j").2 = Resp.ok ∧
    (cancelJob c2State "j").2 ≠ Resp.conflict ∧
    (cancelJob c2State "j").2 ≠ Resp.notFound ∧
    (cancelJob c2State "j").1 ≠ c2State := by
  decide

/-- Claim C2 (amended): confirm behaves as claimed — not-found on an
unknown batch id and conflict on an already-finalized one, in both cases
mutating nothing.  Cancel is not rejected: it always answers success; on
an unknown (hence also on an already-cancelled) id it mutates nothing,
and on a present id — pending or already confirmed — it deletes the
staged entry. -/
theorem c2_amended_transitions (st : ServerState) (jobId : String) :
    (lookupA st.staging jobId = none →
      confirmJob st jobId = (st, Resp.notFound) ∧
      cancelJob st jobId = (st, Resp.ok)) ∧
    (∀ job, lookupA st.staging jobId = some job → job.status ≠ JobStatus.pending →
      confirmJob st jobId = (st, Resp.conflict) ∧
      cancelJob st jobId = ({ st with staging := eraseKey st.staging jobId }, Resp.ok)) := by
  constructor
  · intro h
    constructor
    · unfold confirmJob
      rw [h]
    · unfold cancelJob
      rw [h]
      rfl
  · intro job h hstat
    constructor
    · unfold confirmJob
      rw [h]
      simp [hstat]
    · unfold cancelJob
      rw [h]
      rfl

/-- Witness for C2's amended theorem: an unknown id and a confirmed id on
a concrete staging store. -/
theorem c2_witness :
    (confirmJob c2State "x" = (c2State, Resp.notFound) ∧
      cancelJob c2State "x" = (c2State, Resp.ok)) ∧
    (confirmJob c2State "j" = (c2State, Resp.conflict) ∧
      cancelJob c2State "j" =
        ({ c2State with staging := eraseKey c2State.staging "j" }, Resp.ok)) :=
  ⟨(c2_amended_transitions c2State "x").1 (by decide),
   (c2_amended_transitions c2State "j").2 c2ConfirmedJob (by decide) (by decide)⟩

/-- Claim C4 counterexample: no parse-failure count is surfaced in the
extraction result.  Two input blobs with zero and one failing line yield
the very same extraction result (the bad line is silently skipped and
nothing is counted anywhere), so no function of the result can recover
the failure count the claim says is surfaced. -/
theorem c4_counterexample :
    parseUnicampTxt c4BadContent 1 = parseUnicampTxt c4GoodContent 1 ∧
    specParseFailures c4GoodContent = 0 ∧
    specParseFailures c4BadContent = 1 ∧
    ¬ ∃ f : List Student → Nat,
        ∀ content : String, f (parseUnicampTxt content 1) = specParseFailures content := by
  refine ⟨by decide, by decide, by decide, ?_⟩
  rintro ⟨f, hf⟩
  have h1 := hf c4GoodContent
  have h2 := hf c4BadContent
  rw [show parseUnicampTxt c4BadContent 1 = parseUnicampTxt c4GoodContent 1 by decide] at h2
  rw [show specParseFailures c4GoodContent = 0 by decide] at h1
  rw [show specParseFailures c4BadContent = 1 by decide] at h2
  omega

/-- Claim C4 (amended): extraction recovers locally from bad lines — an
empty line, or a non-empty line that fails the grammar, is skipped and
the rest of the batch is parsed exactly as if the line were absent — but
no failure count is maintained or surfaced; the extraction result is
only the list of parsed records. -/
theorem c4_amended_skip (pre post : List String) (l : String) (ch : Nat)
    (h : pyStrip l = "" ∨ matchLine (pyStrip l) = none) :
    parseLines (pre ++ l :: post) ch = parseLines (pre ++ post) ch := by
  unfold parseLines
  rw [List.filterMap_append, List.filterMap_append, List.filterMap_cons]
  have hnone : lineToStudent ch l = none := by
    unfold lineToStudent
    cases h with
    | inl h0 => rw [if_pos h0]
    | inr h0 =>
      by_cases he : pyStrip l = ""
      · rw [if_pos he]
      · rw [if_neg he, h0]
  rw [hnone]

/-- Witness for C4's amended theorem: dropping a concrete failing line
from a concrete batch leaves the parse result unchanged. -/
theorem c4_witness :
    parseLines (["(1) Ana Reis   Artes Visuais"] ++ "linha sem formato" :: []) 1 =
      parseLines (["(1) Ana Reis   Artes Visuais"] ++ []) 1 :=
  c4_amended_skip ["(1) Ana Reis   Artes Visuais"] [] "linha sem formato" 1
    (Or.inr (by decide))

/-- Claim C3 counterexample: in the api pipeline the stored clean course
name is NOT defined for every record — classify_campus_inline skips the
record (continue) before setting curso_limpo when the campus lookup
misses, so a record whose course resolves nowhere leaves the pipeline
with curso_limpo undefined, even with a non-empty course map. -/
theorem c3_counterexample :
    classifyCampusInline c3Map1 [] [c3Student] = [c3Student] ∧
    c3Student.curso_limpo = none ∧
    c3Map1 ≠ [] := by
  decide

/-- Claim C3 (amended): the clean course name, when it is set, is the
fixed four-step normalization of raw_course and nothing else — a pure
deterministic function of raw_course.  In classify_campus_inline it is
set exactly on records whose campus lookup resolves (and left undefined
otherwise), while the campus_parser processing loop sets it on every
record unconditionally. -/
theorem c3_amended_clean_name (m1 : List (String × List String))
    (m2 : List (String × String)) (s : Student) :
    (∀ u rest,
      pyGetOrList m1 (cleanCursoNameForLookup s.curso)
          (collapseWs (cleanCursoNameForLookup s.curso)) = some (u :: rest) →
      (classifyCampusStudent m1 m2 s).curso_limpo = some (normalizeCourse s.curso)) ∧
    (pyGetOrList m1 (cleanCursoNameForLookup s.curso)
        (collapseWs (cleanCursoNameForLookup s.curso)) = none →
      classifyCampusStudent m1 m2 s = s) ∧
    (pyGetOrList m1 (cleanCursoNameForLookup s.curso)
        (collapseWs (cleanCursoNameForLookup s.curso)) = some [] →
      classifyCampusStudent m1 m2 s = s) ∧
    (processRecordCampus m1 m2 s).curso_limpo = some (normalizeCourse s.curso) := by
  refine ⟨fun u rest h => ?_, fun h => ?_, fun h => ?_, ?_⟩
  · unfold classifyCampusStudent
    dsimp only
    rw [h]
    rfl
  · unfold classifyCampusStudent
    dsimp only
    rw [h]
  · unfold classifyCampusStudent
    dsimp only
    rw [h]
  · rfl

/-- Witness for C3's amended theorem: a record whose course is a direct
hit in the concrete course map gets the normalized clean name. -/
theorem c3_witness :
    (classifyCampusStudent c3Map1 [] c3ResStudent).curso_limpo =
      some (normalizeCourse c3ResStudent.curso) :=
  (c3_amended_clean_name c3Map1 [] c3ResStudent).1 "IA" [] (by decide)

theorem transformFold_snd (l : List Student) (rows : List (String × Row)) (n : Nat) :
    (List.foldl transformStep (rows, n) l).2 = n + l.countP requiredMissing := by
  induction l generalizing rows n with
  | nil => simp
  | cons s t ih =>
    rw [List.foldl_cons, List.countP_cons]
    by_cases h : requiredMissing s
    · have hstep : transformStep (rows, n) s = (rows, n + 1) := by
        unfold transformStep
        rw [if_pos h]
      rw [hstep, ih, h]
      simp
      omega
    · have hstep : transformStep (rows, n) s = (setKey rows s.inscricao (rowOf s), n) := by
        unfold transformStep
        rw [if_neg h]
      have hb : requiredMissing s = false := by
        simp only [Bool.not_eq_true] at h
        exact h
      rw [hstep, ih, hb]
      simp

theorem transformFold_fst (l : List Student) (rows : List (String × Row)) (n m : Nat) :
    (List.foldl transformStep (rows, n) l).1 =
      (List.foldl transformStep (rows, m)
        (l.filter (fun s => !(requiredMissing s)))).1 := by
  induction l generalizing rows n m with
  | nil => simp
  | cons s t ih =>
    rw [List.foldl_cons, List.filter_cons]
    by_cases h : requiredMissing s
    · have hb : (!(requiredMissing s)) = false := by rw [h]; rfl
      have hstep : transformStep (rows, n) s = (rows, n + 1) := by
        unfold transformStep
        rw [if_pos h]
      rw [hb, hstep]
      simp only [Bool.false_eq_true, if_false]
      exact ih rows (n + 1) m
    · have hf : requiredMissing s = false := by
        simp only [Bool.not_eq_true] at h
        exact h
      have hb : (!(requiredMissing s)) = true := by rw [hf]; rfl
      have hstep : ∀ n0 : Nat, transformStep (rows, n0) s =
          (setKey rows s.inscricao (rowOf s), n0) := by
        intro n0
        unfold transformStep
        rw [if_neg h]
      rw [hb, if_pos rfl, List.foldl_cons, hstep, hstep]
      exact ih (setKey rows s.inscricao (rowOf s)) n m

theorem addToGroup_lookup_self (acc : List (String × List Student)) (k : String)
    (s : Student) :
    lookupA (addToGroup acc k s) k = some (((lookupA acc k).getD []) ++ [s]) := by
  induction acc with
  | nil => simp [addToGroup, lookupA]
  | cons p rest ih =>
    obtain ⟨k', l⟩ := p
    unfold addToGroup
    by_cases h : k' = k
    · rw [if_pos h]
      unfold lookupA
      rw [if_pos h, if_pos h]
      rfl
    · rw [if_neg h]
      unfold lookupA
      rw [if_neg h, if_neg h]
      exact ih

theorem addToGroup_lookup_other (acc : List (String × List Student)) (k k' : String)
    (s : Student) (h : k ≠ k') :
    lookupA (addToGroup acc k s) k' = lookupA acc k' := by
  induction acc with
  | nil => simp [addToGroup, lookupA, h]
  | cons p rest ih =>
    obtain ⟨k0, l⟩ := p
    unfold addToGroup
    by_cases h0 : k0 = k
    · rw [if_pos h0]
      unfold lookupA
      rw [if_neg (h0 ▸ h : k0 ≠ k'), if_neg (h0 ▸ h : k0 ≠ k')]
    · rw [if_neg h0]
      unfold lookupA
      by_cases h1 : k0 = k'
      · rw [if_pos h1, if_pos h1]
      · rw [if_neg h1, if_neg h1]
        exact ih

theorem groupFold_lookup (l : List Student) (acc : List (String × List Student))
    (k : String) :
    (lookupA (l.foldl (fun a s => addToGroup a (campusKey s) s) acc) k).getD [] =
      (lookupA acc k).getD [] ++ l.filter (fun s => campusKey s == k) := by
  induction l generalizing acc with
  | nil => simp
  | cons s t ih =>
    rw [List.foldl_cons, List.filter_cons, ih]
    by_cases h : campusKey s = k
    · have hb : (campusKey s == k) = true := by rw [h]; simp
      rw [hb, if_pos rfl]
      rw [← h, addToGroup_lookup_self]
      rw [h]
      simp
    · have hb : (campusKey s == k) = false := by
        rw [beq_eq_false_iff_ne]
        exact h
      rw [hb]
      simp only [Bool.false_eq_true, if_false]
      rw [addToGroup_lookup_other _ _ _ _ h]

theorem bump_lookup_self (m : List (String × Nat)) (k : String) :
    lookupNat (bump m k) k = lookupNat m k + 1 := by
  induction m with
  | nil => simp [bump, lookupNat, lookupA]
  | cons p rest ih =>
    obtain ⟨k', n⟩ := p
    unfold bump
    by_cases h : k' = k
    · rw [if_pos h]
      unfold lookupNat lookupA
      rw [if_pos h, if_pos h]
      rfl
    · rw [if_neg h]
      unfold lookupNat lookupA
      rw [if_neg h, if_neg h]
      exact ih

theorem bump_lookup_other (m : List (String × Nat)) (k k' : String) (h : k ≠ k') :
    lookupNat (bump m k) k' = lookupNat m k' := by
  induction m with
  | nil => simp [bump, lookupNat, lookupA, h]
  | cons p rest ih =>
    obtain ⟨k0, n⟩ := p
    unfold bump
    by_cases h0 : k0 = k
    · rw [if_pos h0]
      unfold lookupNat lookupA
      rw [if_neg (h0 ▸ h : k0 ≠ k'), if_neg (h0 ▸ h : k0 ≠ k')]
    · rw [if_neg h0]
      unfold lookupNat lookupA
      by_cases h1 : k0 = k'
      · rw [if_pos h1, if_pos h1]
      · rw [if_neg h1, if_neg h1]
        exact ih

theorem bumpFold_lookup (keyF : Student → String) (l : List Student)
    (m : List (String × Nat)) (k : String) :
    lookupNat (l.foldl (fun m s => bump m (keyF s)) m) k =
      lookupNat m k + l.countP (fun s => keyF s == k) := by
  induction l generalizing m with
  | nil => simp
  | cons s t ih =>
    rw [List.foldl_cons, List.countP_cons, ih]
    by_cases h : keyF s = k
    · have hb : (keyF s == k) = true := by rw [h]; simp
      rw [hb, ← h, bump_lookup_self, h]
      simp
      omega
    · have hb : (keyF s == k) = false := by
        rw [beq_eq_false_iff_ne]
        exact h
      rw [hb, bump_lookup_other _ _ _ h]
      simp

/-- Claim C8: a classified record with no resolved city fails the
remote required-field check and is excluded from the upsert payload —
removing all such records leaves the payload unchanged — and the skipped
counter counts exactly the failing records (so it counts this one); yet
the record is still written to the unfiltered per-call full dump, still
grouped locally under the "indeterminado" key, and still reported in the
batch summary (in the total and in the "indeterminado" city bucket). -/
theorem c8_null_city_independence (l : List Student) (r : Student)
    (hmem : r ∈ l) (hcity : r.campus = none) :
    requiredMissing r = true ∧
    (transformForSupabase l).1 =
      (transformForSupabase (l.filter (fun s => !(requiredMissing s)))).1 ∧
    (transformForSupabase l).2 = l.countP requiredMissing ∧
    1 ≤ l.countP requiredMissing ∧
    r ∈ fullDumpFor l ∧
    (∃ g, lookupA (groupByCity l) "indeterminado" = some g ∧ r ∈ g) ∧
    (buildSummary l).total = l.length ∧
    1 ≤ lookupNat (buildSummary l).porCampus "indeterminado" := by
  have hreq : requiredMissing r = true := by
    unfold requiredMissing
    rw [hcity]
    simp
  have hkey : campusKey r = "indeterminado" := by
    unfold campusKey
    rw [hcity]
  have hfid : (l.filter (fun s => !(requiredMissing s))).filter
      (fun s => !(requiredMissing s)) = l.filter (fun s => !(requiredMissing s)) :=
    List.filter_eq_self.mpr (fun a ha => (List.mem_filter.mp ha).2)
  refine ⟨hreq, ?_, ?_, ?_, hmem, ?_, rfl, ?_⟩
  · unfold transformForSupabase
    dsimp only
    rw [transformFold_fst l [] 0 0,
        transformFold_fst (l.filter (fun s => !(requiredMissing s))) [] 0 0, hfid]
  · unfold transformForSupabase
    dsimp only
    rw [transformFold_snd]
    omega
  · have hpos : 0 < l.countP requiredMissing :=
      List.countP_pos_iff.mpr ⟨r, hmem, hreq⟩
    omega
  · unfold groupByCity
    have hclosed := groupFold_lookup l [] "indeterminado"
    have h00 : (lookupA ([] : List (String × List Student)) "indeterminado").getD [] =
        [] := rfl
    rw [h00, List.nil_append] at hclosed
    have hrf : r ∈ l.filter (fun s => campusKey s == "indeterminado") := by
      rw [List.mem_filter]
      exact ⟨hmem, by rw [hkey]; simp⟩
    cases hlk : lookupA (l.foldl (fun a s => addToGroup a (campusKey s) s) [])
        "indeterminado" with
    | none =>
      rw [hlk, Option.getD_none] at hclosed
      rw [← hclosed] at hrf
      exact absurd hrf (List.not_mem_nil r)
    | some g =>
      refine ⟨g, rfl, ?_⟩
      rw [hlk, Option.getD_some] at hclosed
      rw [hclosed]
      exact hrf
  · unfold buildSummary
    dsimp only
    rw [bumpFold_lookup]
    have h00 : lookupNat ([] : List (String × Nat)) "indeterminado" = 0 := rfl
    rw [h00]
    have hpos : 0 < l.countP (fun s => campusKey s == "indeterminado") :=
      List.countP_pos_iff.mpr ⟨r, hmem, by rw [hkey]; simp⟩
    omega

/-- Witness for C8 on a one-record batch whose record has no resolved
city. -/
theorem c8_witness :
    requiredMissing c8Rec = true ∧
    (transformForSupabase [c8Rec]).1 =
      (transformForSupabase ([c8Rec].filter (fun s => !(requiredMissing s)))).1 ∧
    (transformForSupabase [c8Rec]).2 = [c8Rec].countP requiredMissing ∧
    1 ≤ [c8Rec].countP requiredMissing ∧
    c8Rec ∈ fullDumpFor [c8Rec] ∧
    (∃ g, lookupA (groupByCity [c8Rec]) "indeterminado" = some g ∧ c8Rec ∈ g) ∧
    (buildSummary [c8Rec]).total = [c8Rec].length ∧
    1 ≤ lookupNat (buildSummary [c8Rec]).porCampus "indeterminado" :=
  c8_null_city_independence [c8Rec] c8Rec (by decide) (by decide)

end RemoteService
